import Mathlib

/-!
Verification development for the riki idle-RPG economy engine.

The Python services are shallowly embedded as pure Lean functions:
machine integers become `Int`/`Nat`, Python floats become exact
rationals `Rat` (every claim settled here is order-theoretic or
structural, unaffected by rounding of the constants involved),
`datetime` timestamps become `Nat` seconds, and the
`ServiceResult`/`_safe_execute` envelope of `base_service.py` becomes
`Except ErrorCode` paired with the post-call persistent state
(state unchanged on the error path, modelling transaction rollback).

The `Player` row used by `currency_service.py` and `tower_service.py`
(fields `seios`, `ichor`, `erythl`, `current_floor`,
`highest_floor_reached`, `raid_progress`, ...) has no model file in the
repository (the checked-in `player.py` is a different variant); those
fields are modelled from the spec where noted.  Everything else is
translated directly from the named source functions.
-/

namespace Riki

/-- Error classification of `BaseService._safe_execute`
(`src/services/base_service.py`): `ValueError` maps to
`validationError`, `PermissionError` to `permissionError`,
`ResourceError` to `insufficientResources`, anything else to
`internalError`. -/
inductive ErrorCode where
  | validationError
  | permissionError
  | insufficientResources
  | internalError
deriving DecidableEq

/-- Currency kinds of `CurrencyService` (`currency_service.py`). -/
inductive CurrencyType where
  | seios
  | ichor
  | erythl
deriving DecidableEq

/-- Modelled from the spec: the player currency balances
(three named non-negative integer balances) used via
`getattr(player, currency_type.value)` by `currency_service.py`;
the corresponding `Player` model file is absent from the repository. -/
structure PlayerCurrency where
  seios : Int
  ichor : Int
  erythl : Int
deriving DecidableEq

/-- Dynamic attribute read `getattr(player, currency_type.value)`. -/
def getCurrency (p : PlayerCurrency) : CurrencyType → Int
  | CurrencyType.seios => p.seios
  | CurrencyType.ichor => p.ichor
  | CurrencyType.erythl => p.erythl

/-- Dynamic attribute write `setattr(player, currency_type.value, v)`. -/
def setCurrency (p : PlayerCurrency) (c : CurrencyType) (v : Int) : PlayerCurrency :=
  match c with
  | CurrencyType.seios => { p with seios := v }
  | CurrencyType.ichor => { p with ichor := v }
  | CurrencyType.erythl => { p with erythl := v }

/-- Embedding of `CurrencyService.subtract_currency`
(`currency_service.py`, lines 76-132).  Both failure paths raise
`ValueError`, which `_safe_execute` classifies as `validationError`;
the transaction rolls back, so the returned state is the input state.
On success the result data carries `(old_amount, new_amount)`. -/
def subtractCurrency (p : PlayerCurrency) (c : CurrencyType) (amount : Int) :
    Except ErrorCode (Int × Int) × PlayerCurrency :=
  if amount ≤ 0 then
    (Except.error ErrorCode.validationError, p)
  else
    let current := getCurrency p c
    if current < amount then
      (Except.error ErrorCode.validationError, p)
    else
      (Except.ok (current, current - amount), setCurrency p c (current - amount))

/-- Embedding of `CurrencyService.add_currency`
(`currency_service.py`, lines 24-74). -/
def addCurrency (p : PlayerCurrency) (c : CurrencyType) (amount : Int) :
    Except ErrorCode (Int × Int) × PlayerCurrency :=
  if amount ≤ 0 then
    (Except.error ErrorCode.validationError, p)
  else
    let old := getCurrency p c
    (Except.ok (old, old + amount), setCurrency p c (old + amount))

/-- Embedding of `CurrencyService.validate_currency_cost`
(`currency_service.py`, lines 134-161): read-only, returns
`(current_amount, can_afford, shortage)`. -/
def validateCurrencyCost (p : PlayerCurrency) (c : CurrencyType) (amount : Int) :
    Int × Bool × Int :=
  let current := getCurrency p c
  (current, decide (amount ≤ current), max 0 (amount - current))

/-- Player fields of `src/database/models/player.py` used by
`ResourceService` (`resource_service.py`): the model declares
`level : int = Field(default=0, ge=0)` and starting resources
`energy = 50`, `stamina = 25`. -/
structure ResourcePlayer where
  level : Nat
  energy : Int
  stamina : Int
  lastEnergyRegen : Nat
  lastStaminaRegen : Nat
  energyInvestment : Nat
  staminaInvestment : Nat
deriving DecidableEq

/-- Default field values of the `Player` model
(`player.py` lines 26-39: `level = 0`, `energy = 50`, `stamina = 25`),
with both regeneration timestamps at creation time 0. -/
def defaultResourcePlayer : ResourcePlayer :=
  { level := 0, energy := 50, stamina := 25
    lastEnergyRegen := 0, lastStaminaRegen := 0
    energyInvestment := 0, staminaInvestment := 0 }

/-- Embedding of `ResourceService._calculate_energy_cap`
(`resource_service.py`, lines 279-284):
`base_energy + ((player.level - 1) * energy_per_level)` with no
clamping of `level - 1` at zero and no investment term. -/
def serviceEnergyCap (baseEnergy energyPerLevel : Int) (p : ResourcePlayer) : Int :=
  baseEnergy + ((p.level : Int) - 1) * energyPerLevel

/-- Embedding of `ResourceService._calculate_stamina_cap`
(`resource_service.py`, lines 286-291). -/
def serviceStaminaCap (baseStamina staminaPerLevel : Int) (p : ResourcePlayer) : Int :=
  baseStamina + ((p.level : Int) - 1) * staminaPerLevel

/-- Embedding of `Player.get_energy_cap` (`player.py`, lines 127-131):
`50 + max(0, level - 1) * 10 + energy_investment * 5`. -/
def playerModelEnergyCap (p : ResourcePlayer) : Int :=
  50 + max 0 ((p.level : Int) - 1) * 10 + (p.energyInvestment : Int) * 5

/-- Embedding of `Player.get_stamina_cap` (`player.py`, lines 133-137). -/
def playerModelStaminaCap (p : ResourcePlayer) : Int :=
  25 + max 0 ((p.level : Int) - 1) * 5 + (p.staminaInvestment : Int) * 5

/-- Embedding of `ResourceService._regenerate_resource`
(`resource_service.py`, lines 252-277).  Times are `Nat` seconds;
`intervals_passed = int(time_diff.total_seconds() // (regen_minutes * 60))`
becomes `Nat` division; the returned pair is
`(amount_to_add, new_last_regen)`, with the timestamp advanced by
`timedelta(minutes=regen_minutes * intervals_passed)`. -/
def regenerateResource (currentValue capValue : Int) (lastRegenTime : Nat)
    (regenMinutes regenAmount : Nat) (now : Nat) : Int × Nat :=
  if capValue ≤ currentValue then
    (0, lastRegenTime)
  else
    let intervalsPassed : Nat := (now - lastRegenTime) / (regenMinutes * 60)
    if 0 < intervalsPassed then
      let amountToAdd : Int :=
        min ((intervalsPassed : Int) * (regenAmount : Int)) (capValue - currentValue)
      if 0 < amountToAdd then
        (amountToAdd, lastRegenTime + regenMinutes * intervalsPassed * 60)
      else
        (0, lastRegenTime)
    else
      (0, lastRegenTime)

/-- C1: for a player whose balance is below the requested amount,
`subtract_currency` leaves the balance unchanged and returns an error,
but the error is classified `VALIDATION_ERROR` (the `ValueError` path
of `_safe_execute`), not `INSUFFICIENT_RESOURCES` as the spec states:
the `ResourceError` branch of `base_service.py` is never reached.
Evaluated at the failing input balance 5, amount 10; the success path
at balance 12, amount 10 does set the new balance to `old - amount`. -/
theorem c1_subtract_insufficient_classified_validation :
    subtractCurrency ⟨5, 0, 0⟩ CurrencyType.seios 10 =
      (Except.error ErrorCode.validationError, ⟨5, 0, 0⟩) ∧
    ErrorCode.validationError ≠ ErrorCode.insufficientResources ∧
    subtractCurrency ⟨12, 0, 0⟩ CurrencyType.seios 10 =
      (Except.ok (12, 2), ⟨2, 0, 0⟩) :=
  ⟨rfl, by decide, rfl⟩

/-- Helper: number of whole regeneration intervals elapsed. -/
def regenIntervals (last m now : Nat) : Nat :=
  (now - last) / (m * 60)

lemma regen_at_cap (cur cap : Int) (last m amt now : Nat) (h : cap ≤ cur) :
    regenerateResource cur cap last m amt now = (0, last) := by
  simp only [regenerateResource, if_pos h]

lemma regen_fst (cur cap : Int) (last m amt now : Nat) (hlt : cur < cap) :
    (regenerateResource cur cap last m amt now).1 =
      min (((regenIntervals last m now : Nat) : Int) * (amt : Int)) (cap - cur) := by
  have hnotle : ¬ cap ≤ cur := not_le.mpr hlt
  have hcc : (0 : Int) < cap - cur := by omega
  have hK : (0 : Int) ≤ (((now - last) / (m * 60) : Nat) : Int) * (amt : Int) :=
    mul_nonneg (Int.natCast_nonneg _) (Int.natCast_nonneg _)
  simp only [regenerateResource, regenIntervals, if_neg hnotle]
  by_cases hkpos : 0 < (now - last) / (m * 60)
  · rw [if_pos hkpos]
    by_cases ha :
        (0 : Int) < min ((((now - last) / (m * 60) : Nat) : Int) * (amt : Int)) (cap - cur)
    · rw [if_pos ha]
    · rw [if_neg ha]
      exact (le_antisymm (not_lt.mp ha) (le_min hK hcc.le)).symm
  · rw [if_neg hkpos]
    have hk0 : (now - last) / (m * 60) = 0 := Nat.eq_zero_of_not_pos hkpos
    show (0 : Int) = _
    rw [hk0, Nat.cast_zero, zero_mul]
    exact (min_eq_left hcc.le).symm

lemma regen_fst_nonneg (cur cap : Int) (last m amt now : Nat) :
    0 ≤ (regenerateResource cur cap last m amt now).1 := by
  by_cases h : cap ≤ cur
  · rw [regen_at_cap cur cap last m amt now h]
  · have hlt : cur < cap := not_le.mp h
    rw [regen_fst cur cap last m amt now hlt]
    exact le_min (mul_nonneg (Int.natCast_nonneg _) (Int.natCast_nonneg _)) (by omega)

lemma regen_fst_le (cur cap : Int) (last m amt now : Nat) (hlt : cur < cap) :
    cur + (regenerateResource cur cap last m amt now).1 ≤ cap := by
  rw [regen_fst cur cap last m amt now hlt]
  have := min_le_right (((regenIntervals last m now : Nat) : Int) * (amt : Int)) (cap - cur)
  omega

lemma regen_snd_pos (cur cap : Int) (last m amt now : Nat)
    (hpos : 0 < (regenerateResource cur cap last m amt now).1) :
    (regenerateResource cur cap last m amt now).2 =
      last + m * regenIntervals last m now * 60 := by
  by_cases h : cap ≤ cur
  · rw [regen_at_cap cur cap last m amt now h] at hpos
    exact absurd hpos (lt_irrefl 0)
  · simp only [regenerateResource, regenIntervals, if_neg h] at hpos ⊢
    by_cases hkpos : 0 < (now - last) / (m * 60)
    · rw [if_pos hkpos] at hpos ⊢
      by_cases ha :
          (0 : Int) < min ((((now - last) / (m * 60) : Nat) : Int) * (amt : Int)) (cap - cur)
      · rw [if_pos ha]
      · rw [if_neg ha] at hpos
        exact absurd hpos (lt_irrefl 0)
    · rw [if_neg hkpos] at hpos
      exact absurd hpos (lt_irrefl 0)

lemma regen_snd_zero (cur cap : Int) (last m amt now : Nat)
    (hz : (regenerateResource cur cap last m amt now).1 ≤ 0) :
    (regenerateResource cur cap last m amt now).2 = last := by
  by_cases h : cap ≤ cur
  · rw [regen_at_cap cur cap last m amt now h]
  · simp only [regenerateResource, if_neg h] at hz ⊢
    by_cases hkpos : 0 < (now - last) / (m * 60)
    · rw [if_pos hkpos] at hz ⊢
      by_cases ha :
          (0 : Int) < min ((((now - last) / (m * 60) : Nat) : Int) * (amt : Int)) (cap - cur)
      · rw [if_pos ha] at hz
        exact absurd ha (not_lt.mpr hz)
      · rw [if_neg ha]
    · rw [if_neg hkpos]

lemma regen_snd_le_now (cur cap : Int) (last m amt now : Nat) (hlast : last ≤ now) :
    (regenerateResource cur cap last m amt now).2 ≤ now := by
  have hts : m * ((now - last) / (m * 60)) * 60 ≤ now - last := by
    calc m * ((now - last) / (m * 60)) * 60
        = ((now - last) / (m * 60)) * (m * 60) := by ring
      _ ≤ now - last := Nat.div_mul_le_self _ _
  have h4 : last + m * ((now - last) / (m * 60)) * 60 ≤ now := by
    generalize hM : m * ((now - last) / (m * 60)) * 60 = M at hts ⊢
    omega
  by_cases hz : (regenerateResource cur cap last m amt now).1 ≤ 0
  · rw [regen_snd_zero cur cap last m amt now hz]
    exact hlast
  · rw [regen_snd_pos cur cap last m amt now (not_le.mp hz)]
    exact h4

/-- C2: lazy regeneration adds
`min(intervalsPassed * amountPerInterval, cap - current)` where
`intervalsPassed = floor(elapsed / intervalDuration)`; when the added
amount is positive the timestamp advances by exactly
`intervalsPassed * intervalDuration` (and in particular never past
`now`); when the resource is at or above cap nothing is added and the
timestamp is untouched. -/
theorem c2_regenerate_resource_correct
    (cur cap : Int) (last m amt now : Nat) (hm : 0 < m) (hlast : last ≤ now) :
    (cap ≤ cur → regenerateResource cur cap last m amt now = (0, last)) ∧
    (cur < cap →
      (regenerateResource cur cap last m amt now).1 =
        min (((regenIntervals last m now : Nat) : Int) * (amt : Int)) (cap - cur) ∧
      (0 < (regenerateResource cur cap last m amt now).1 →
        (regenerateResource cur cap last m amt now).2 =
          last + m * regenIntervals last m now * 60) ∧
      ((regenerateResource cur cap last m amt now).1 ≤ 0 →
        (regenerateResource cur cap last m amt now).2 = last) ∧
      (regenerateResource cur cap last m amt now).2 ≤ now) :=
  ⟨fun h => regen_at_cap cur cap last m amt now h,
   fun hlt =>
    ⟨regen_fst cur cap last m amt now hlt,
     fun hpos => regen_snd_pos cur cap last m amt now hpos,
     fun hz => regen_snd_zero cur cap last m amt now hz,
     regen_snd_le_now cur cap last m amt now hlast⟩⟩

/-- C2 witness: concrete run with current 10, cap 50, interval 5
minutes, 1 per interval, 700 seconds elapsed (2 whole intervals). -/
theorem c2_regenerate_resource_correct_witness :
    ((50 : Int) ≤ 10 → regenerateResource 10 50 0 5 1 700 = (0, 0)) ∧
    ((10 : Int) < 50 →
      (regenerateResource 10 50 0 5 1 700).1 =
        min (((regenIntervals 0 5 700 : Nat) : Int) * ((1 : Nat) : Int)) (50 - 10) ∧
      (0 < (regenerateResource 10 50 0 5 1 700).1 →
        (regenerateResource 10 50 0 5 1 700).2 =
          0 + 5 * regenIntervals 0 5 700 * 60) ∧
      ((regenerateResource 10 50 0 5 1 700).1 ≤ 0 →
        (regenerateResource 10 50 0 5 1 700).2 = 0) ∧
      (regenerateResource 10 50 0 5 1 700).2 ≤ 700) :=
  c2_regenerate_resource_correct 10 50 0 5 1 700 (by decide) (by decide)

/-- Embedding of `ResourceService._regenerate_stamina`
(`resource_service.py`, lines 230-250): compute the cap, return 0 at or
above cap, otherwise run `_regenerate_resource` and, when the added
amount is positive, bump `player.stamina` and `player.last_stamina_regen`.
Returns the mutated player and the amount added. -/
def regenerateStaminaPlayer (p : ResourcePlayer) (base perLevel : Int)
    (m amt now : Nat) : ResourcePlayer × Int :=
  let cap := serviceStaminaCap base perLevel p
  if cap ≤ p.stamina then (p, 0)
  else
    let r := regenerateResource p.stamina cap p.lastStaminaRegen m amt now
    if 0 < r.1 then
      ({ p with stamina := p.stamina + r.1, lastStaminaRegen := r.2 }, r.1)
    else (p, r.1)

/-- Embedding of `ResourceService.consume_stamina`
(`resource_service.py`, lines 57-114): validate positivity, regenerate
lazily, fail with `ValueError` (hence `validationError`, with the
whole transaction rolled back) when the regenerated stamina is still
short, otherwise deduct.  Result data is `stamina_remaining`. -/
def consumeStamina (p : ResourcePlayer) (base perLevel : Int)
    (m amt now : Nat) (amount : Int) : Except ErrorCode Int × ResourcePlayer :=
  if amount ≤ 0 then (Except.error ErrorCode.validationError, p)
  else
    let p1 := (regenerateStaminaPlayer p base perLevel m amt now).1
    if p1.stamina < amount then (Except.error ErrorCode.validationError, p)
    else (Except.ok (p1.stamina - amount), { p1 with stamina := p1.stamina - amount })

/-- Embedding of `ResourceService._calculate_potential_stamina_regen`
(`resource_service.py`, lines 293-307): the regeneration that would
happen if checked now, without mutating anything. -/
def potentialStaminaRegen (p : ResourcePlayer) (base perLevel : Int)
    (m amt now : Nat) : Int :=
  let cap := serviceStaminaCap base perLevel p
  if cap ≤ p.stamina then 0
  else
    min (((regenIntervals p.lastStaminaRegen m now : Nat) : Int) * (amt : Int))
      (cap - p.stamina)

/-- Embedding of `ResourceService.validate_stamina_cost`
(`resource_service.py`, lines 175-206): read-only; returns
`(current_stamina, effective_stamina, can_afford, shortage)` where
`effective_stamina = min(current + potential_regen, cap)`. -/
def validateStaminaCost (p : ResourcePlayer) (base perLevel : Int)
    (m amt now : Nat) (amount : Int) : Int × Int × Bool × Int :=
  let cap := serviceStaminaCap base perLevel p
  let effective := min (p.stamina + potentialStaminaRegen p base perLevel m amt now) cap
  (p.stamina, effective, decide (amount ≤ effective), max 0 (amount - effective))

lemma regenStamina_stamina (p : ResourcePlayer) (base perLevel : Int) (m amt now : Nat) :
    (regenerateStaminaPlayer p base perLevel m amt now).1.stamina =
      p.stamina + (regenerateResource p.stamina (serviceStaminaCap base perLevel p)
        p.lastStaminaRegen m amt now).1 := by
  simp only [regenerateStaminaPlayer]
  by_cases h : serviceStaminaCap base perLevel p ≤ p.stamina
  · rw [if_pos h, regen_at_cap _ _ _ _ _ _ h]
    simp
  · rw [if_neg h]
    by_cases hpos :
        0 < (regenerateResource p.stamina (serviceStaminaCap base perLevel p)
          p.lastStaminaRegen m amt now).1
    · rw [if_pos hpos]
    · rw [if_neg hpos]
      have h0 := regen_fst_nonneg p.stamina (serviceStaminaCap base perLevel p)
        p.lastStaminaRegen m amt now
      have hz : (regenerateResource p.stamina (serviceStaminaCap base perLevel p)
          p.lastStaminaRegen m amt now).1 = 0 :=
        le_antisymm (not_lt.mp hpos) h0
      show p.stamina = _
      rw [hz, add_zero]

lemma potential_eq_regen_fst (p : ResourcePlayer) (base perLevel : Int) (m amt now : Nat) :
    potentialStaminaRegen p base perLevel m amt now =
      (regenerateResource p.stamina (serviceStaminaCap base perLevel p)
        p.lastStaminaRegen m amt now).1 := by
  simp only [potentialStaminaRegen]
  by_cases h : serviceStaminaCap base perLevel p ≤ p.stamina
  · rw [if_pos h, regen_at_cap _ _ _ _ _ _ h]
  · rw [if_neg h, regen_fst _ _ _ _ _ _ (not_le.mp h)]

/-- C10 counterexample: at the model-default level-0 state
(stamina 25, service cap 20) and cost 25, `validate_stamina_cost`
reports `can_afford = false`, yet `consume_stamina` of the same amount
at the same instant succeeds, because `validate` clamps the effective
stamina at the cap while `consume` compares the raw balance. -/
theorem c10_validate_consume_disagree_over_cap :
    (validateStaminaCost defaultResourcePlayer 25 5 5 1 0 25).2.2.1 = false ∧
    (consumeStamina defaultResourcePlayer 25 5 5 1 0 25).1 = Except.ok 0 :=
  ⟨by decide, rfl⟩

/-- C10 (amended): for every player state whose current stamina does
not exceed the service-computed cap, and every positive amount at one
instant, `validate_stamina_cost` reports `can_afford = true` iff
`consume_stamina` succeeds, `can_afford = true` iff `shortage = 0`, and
the reported effective stamina is exactly the value `consume_stamina`
sees after applying lazy regeneration. -/
theorem c10_validate_iff_consume (p : ResourcePlayer) (base perLevel : Int)
    (m amt now : Nat) (amount : Int) (hm : 0 < m) (hpos : 0 < amount)
    (hcap : p.stamina ≤ serviceStaminaCap base perLevel p) :
    ((validateStaminaCost p base perLevel m amt now amount).2.2.1 = true ↔
      (consumeStamina p base perLevel m amt now amount).1.isOk = true) ∧
    ((validateStaminaCost p base perLevel m amt now amount).2.2.1 = true ↔
      (validateStaminaCost p base perLevel m amt now amount).2.2.2 = 0) ∧
    (validateStaminaCost p base perLevel m amt now amount).2.1 =
      (regenerateStaminaPlayer p base perLevel m amt now).1.stamina := by
  have hr := regenStamina_stamina p base perLevel m amt now
  have hq := potential_eq_regen_fst p base perLevel m amt now
  have hle : p.stamina +
      (regenerateResource p.stamina (serviceStaminaCap base perLevel p)
        p.lastStaminaRegen m amt now).1 ≤ serviceStaminaCap base perLevel p := by
    by_cases h : serviceStaminaCap base perLevel p ≤ p.stamina
    · rw [regen_at_cap _ _ _ _ _ _ h]
      omega
    · exact regen_fst_le _ _ _ _ _ _ (not_le.mp h)
  have heff : (validateStaminaCost p base perLevel m amt now amount).2.1 =
      (regenerateStaminaPlayer p base perLevel m amt now).1.stamina := by
    simp only [validateStaminaCost, hq, hr]
    exact min_eq_left hle
  refine ⟨?_, ?_, heff⟩
  · have hnotneg : ¬ amount ≤ 0 := not_le.mpr hpos
    simp only [consumeStamina, if_neg hnotneg, validateStaminaCost, hq]
    rw [min_eq_left hle, hr]
    by_cases haff : p.stamina +
        (regenerateResource p.stamina (serviceStaminaCap base perLevel p)
          p.lastStaminaRegen m amt now).1 < amount
    · rw [if_pos haff]
      simp only [Except.isOk, Except.toBool]
      constructor
      · intro h
        exact absurd (of_decide_eq_true h) (not_le.mpr haff)
      · intro h
        exact Bool.noConfusion h
    · rw [if_neg haff]
      simp only [Except.isOk, Except.toBool]
      exact ⟨fun _ => trivial, fun _ => decide_eq_true (not_lt.mp haff)⟩
  · simp only [validateStaminaCost]
    constructor
    · intro h
      have := of_decide_eq_true h
      omega
    · intro h
      refine decide_eq_true ?_
      omega

/-- C10 witness: level-1 player with stamina 3, cap 25, elapsed 700
seconds (2 intervals at 5 minutes, 1 per interval), cost 5: validate
agrees with consume. -/
theorem c10_validate_iff_consume_witness :
    (((validateStaminaCost ⟨1, 50, 3, 0, 0, 0, 0⟩ 25 5 5 1 700 5).2.2.1 = true ↔
      (consumeStamina ⟨1, 50, 3, 0, 0, 0, 0⟩ 25 5 5 1 700 5).1.isOk = true) ∧
    ((validateStaminaCost ⟨1, 50, 3, 0, 0, 0, 0⟩ 25 5 5 1 700 5).2.2.1 = true ↔
      (validateStaminaCost ⟨1, 50, 3, 0, 0, 0, 0⟩ 25 5 5 1 700 5).2.2.2 = 0) ∧
    (validateStaminaCost ⟨1, 50, 3, 0, 0, 0, 0⟩ 25 5 5 1 700 5).2.1 =
      (regenerateStaminaPlayer ⟨1, 50, 3, 0, 0, 0, 0⟩ 25 5 5 1 700).1.stamina) :=
  c10_validate_iff_consume ⟨1, 50, 3, 0, 0, 0, 0⟩ 25 5 5 1 700 5
    (by decide) (by decide) (by decide)

/-- C8: the claimed invariant `resource current ≤ capacity(level, investment)`
fails for level-0 players.  The `Player` model itself allows level 0
(`level: int = Field(default=0, ge=0)`, starting energy 50, stamina 25),
and its own `get_energy_cap` clamps `level - 1` at zero (cap 50), but
`ResourceService._calculate_energy_cap` computes `50 + (0 - 1) * 10 = 40`,
strictly below the default current energy 50 (stamina: cap 20 < 25). -/
theorem c8_level0_capacity_invariant_violated :
    serviceEnergyCap 50 10 defaultResourcePlayer = 40 ∧
    ¬ defaultResourcePlayer.energy ≤ serviceEnergyCap 50 10 defaultResourcePlayer ∧
    serviceStaminaCap 25 5 defaultResourcePlayer = 20 ∧
    ¬ defaultResourcePlayer.stamina ≤ serviceStaminaCap 25 5 defaultResourcePlayer ∧
    defaultResourcePlayer.energy ≤ playerModelEnergyCap defaultResourcePlayer ∧
    defaultResourcePlayer.stamina ≤ playerModelStaminaCap defaultResourcePlayer := by
  refine ⟨by decide, by decide, by decide, by decide, by decide, by decide⟩

/-- Stack fields of the `Esprit` model (`esprit.py`) used by
`FusionService`: tier and quantity (owner and template references are
fixed throughout a fusion and elided). -/
structure FusionStack where
  tier : Nat
  quantity : Nat
deriving DecidableEq

/-- Persistent state touched by `execute_fusion`: the owning player's
currency row and the stack row. -/
structure FusionDB where
  player : PlayerCurrency
  esprit : FusionStack
deriving DecidableEq

/-- Embedding of `FusionService._calculate_fusion_cost`
(`fusion_service.py`, lines 244-250):
`fusion_base_cost + current_tier * tier_cost_multiplier`. -/
def fusionCost (baseCost tierCostMultiplier : Int) (tier : Nat) : Int :=
  baseCost + (tier : Int) * tierCostMultiplier

/-- Embedding of `FusionService._can_perform_fusion`
(`fusion_service.py`, lines 252-259): `quantity >= 2`,
`tier < get_tier_cap()` and `validate_tier()` (`1 <= tier <= max_tier`,
`esprit.py` lines 55-62). -/
def canPerformFusion (e : FusionStack) (maxTier : Nat) : Bool :=
  decide (2 ≤ e.quantity ∧ e.tier < maxTier ∧ 1 ≤ e.tier ∧ e.tier ≤ maxTier)

/-- Embedding of `FusionService.execute_fusion`
(`fusion_service.py`, lines 84-175) with an explicit fault point at the
outer transaction commit.  `subtract_currency` is invoked through its
own `DatabaseService.get_transaction`, which commits independently of
the outer session (`database_service.py`, lines 111-136), and its result
envelope is not inspected by `execute_fusion`; so when the outer commit
fails, the esprit mutation is rolled back while the already-committed
currency deduction persists.  Result data on success is
`(from_tier, to_tier, from_quantity, to_quantity, seios_cost)`. -/
def executeFusionWithFault (db : FusionDB) (maxTier : Nat)
    (baseCost tierCostMultiplier : Int) (outerCommitFails : Bool) :
    Except ErrorCode (Nat × Nat × Nat × Nat × Int) × FusionDB :=
  if canPerformFusion db.esprit maxTier then
    let cost := fusionCost baseCost tierCostMultiplier db.esprit.tier
    if (validateCurrencyCost db.player CurrencyType.seios cost).2.1 then
      let afterSub := (subtractCurrency db.player CurrencyType.seios cost).2
      if outerCommitFails then
        (Except.error ErrorCode.internalError, { db with player := afterSub })
      else
        (Except.ok (db.esprit.tier, db.esprit.tier + 1, db.esprit.quantity,
           db.esprit.quantity - 1, cost),
         { player := afterSub,
           esprit := { tier := db.esprit.tier + 1, quantity := db.esprit.quantity - 1 } })
    else
      (Except.error ErrorCode.validationError, db)
  else
    (Except.error ErrorCode.validationError, db)

/-- Fault-free run of `execute_fusion`. -/
def executeFusion (db : FusionDB) (maxTier : Nat) (baseCost tierCostMultiplier : Int) :
    Except ErrorCode (Nat × Nat × Nat × Nat × Int) × FusionDB :=
  executeFusionWithFault db maxTier baseCost tierCostMultiplier false

/-- C3: for every owned stack (tier at least 1), an executed fusion
raises the tier by exactly 1, lowers the quantity by exactly 1 and
charges `baseCost + tier * tierCostMultiplier` seios; whenever
`quantity < 2` or `tier >= maxTier` the fusion is blocked with an error
envelope, no mutation to the stack and no currency deducted. -/
theorem c3_fusion_effect_and_block (db : FusionDB) (maxTier : Nat)
    (baseCost tierMult : Int) (htier : 1 ≤ db.esprit.tier)
    (hcost : 0 < fusionCost baseCost tierMult db.esprit.tier) :
    (2 ≤ db.esprit.quantity → db.esprit.tier < maxTier →
      fusionCost baseCost tierMult db.esprit.tier ≤ db.player.seios →
      executeFusion db maxTier baseCost tierMult =
        (Except.ok (db.esprit.tier, db.esprit.tier + 1, db.esprit.quantity,
           db.esprit.quantity - 1, fusionCost baseCost tierMult db.esprit.tier),
         { player :=
             { db.player with
                 seios := db.player.seios - fusionCost baseCost tierMult db.esprit.tier },
           esprit :=
             { tier := db.esprit.tier + 1, quantity := db.esprit.quantity - 1 } })) ∧
    (db.esprit.quantity < 2 ∨ maxTier ≤ db.esprit.tier →
      executeFusion db maxTier baseCost tierMult =
        (Except.error ErrorCode.validationError, db)) := by
  constructor
  · intro hq2 hlt haff
    have hcan : canPerformFusion db.esprit maxTier = true :=
      decide_eq_true ⟨hq2, hlt, htier, le_of_lt hlt⟩
    have hval : (validateCurrencyCost db.player CurrencyType.seios
        (fusionCost baseCost tierMult db.esprit.tier)).2.1 = true :=
      decide_eq_true haff
    simp only [executeFusion, executeFusionWithFault, if_pos hcan, hval, if_pos,
      subtractCurrency, if_neg (not_le.mpr hcost), getCurrency,
      if_neg (not_lt.mpr haff), setCurrency, Bool.false_eq_true, if_false]
  · intro hblock
    have hcan : canPerformFusion db.esprit maxTier = false := by
      refine decide_eq_false ?_
      rintro ⟨h1, h2, _, _⟩
      rcases hblock with h | h
      · omega
      · omega
    simp only [executeFusion, executeFusionWithFault, hcan, Bool.false_eq_true, if_false]

/-- C3 witness: stack of tier 1, quantity 2, owner holding 2000 seios,
max tier 12, cost 1000 + 1 * 500 = 1500: fusion yields tier 2,
quantity 1, seios 500; and a quantity-1 stack is blocked unchanged. -/
theorem c3_fusion_effect_and_block_witness :
    ((2 ≤ (2 : Nat) → (1 : Nat) < 12 →
      fusionCost 1000 500 1 ≤ (2000 : Int) →
      executeFusion ⟨⟨2000, 0, 0⟩, ⟨1, 2⟩⟩ 12 1000 500 =
        (Except.ok (1, 1 + 1, 2, 2 - 1, fusionCost 1000 500 1),
         { player := { seios := 2000 - fusionCost 1000 500 1, ichor := 0, erythl := 0 },
           esprit := { tier := 1 + 1, quantity := 2 - 1 } })) ∧
    ((2 : Nat) < 2 ∨ (12 : Nat) ≤ 1 →
      executeFusion ⟨⟨2000, 0, 0⟩, ⟨1, 2⟩⟩ 12 1000 500 =
        (Except.error ErrorCode.validationError, ⟨⟨2000, 0, 0⟩, ⟨1, 2⟩⟩))) :=
  c3_fusion_effect_and_block ⟨⟨2000, 0, 0⟩, ⟨1, 2⟩⟩ 12 1000 500 (by decide) (by decide)

/-- C9: `execute_fusion` is not atomic on failure.  With stack
(tier 1, quantity 2), 2000 seios and default fusion costs, a failure at
the outer transaction commit — after `subtract_currency` has committed
its own independent transaction — returns an unsuccessful envelope while
the persisted state has 500 seios instead of the original 2000: the
deduction survives even though the operation reports failure. -/
theorem c9_fusion_failure_persists_deduction :
    executeFusionWithFault ⟨⟨2000, 0, 0⟩, ⟨1, 2⟩⟩ 12 1000 500 true =
      (Except.error ErrorCode.internalError, ⟨⟨500, 0, 0⟩, ⟨1, 2⟩⟩) ∧
    (⟨⟨500, 0, 0⟩, ⟨1, 2⟩⟩ : FusionDB) ≠ ⟨⟨2000, 0, 0⟩, ⟨1, 2⟩⟩ :=
  ⟨rfl, by decide⟩

/-- Python `int()` applied to a float: truncation toward zero,
modelled on exact rationals. -/
def pyInt (q : Rat) : Int :=
  if 0 ≤ q then ⌊q⌋ else -⌊-q⌋

/-- Scaling configuration read by `PowerService._calculate_individual_power`
(`power_service.py`, lines 213-240): `power.tier_scaling_base` (default 1.0),
`power.tier_scaling_multiplier` (default 0.15),
`power.element_bonus_multiplier` (default 0.05). -/
structure PowerConfig where
  tierScalingBase : Rat
  tierScalingMultiplier : Rat
  elementBonusMultiplier : Rat

/-- Template stats of `EspritBase` (`esprit_base.py`): `base_atk` and
`base_def`, both declared `ge=1`. -/
structure EspritBaseStats where
  baseAtk : Int
  baseDef : Int
deriving DecidableEq

/-- Result triple of `_calculate_individual_power`. -/
structure PowerStats where
  atk : Int
  defense : Int
  power : Int
deriving DecidableEq

/-- Embedding of `PowerService._calculate_individual_power`
(`power_service.py`, lines 213-240):
`tier_multiplier = base + (tier - 1) * multiplier`,
`element_multiplier = 1 + element_bonus`,
`final_atk = int(base_atk * total_multiplier)` and likewise for
defense; `power = atk + def`. -/
def individualPower (tier : Nat) (b : EspritBaseStats) (cfg : PowerConfig) : PowerStats :=
  let tierMultiplier := cfg.tierScalingBase + ((tier : Rat) - 1) * cfg.tierScalingMultiplier
  let elementMultiplier := 1 + cfg.elementBonusMultiplier
  let totalMultiplier := tierMultiplier * elementMultiplier
  let finalAtk := pyInt ((b.baseAtk : Rat) * totalMultiplier)
  let finalDef := pyInt ((b.baseDef : Rat) * totalMultiplier)
  ⟨finalAtk, finalDef, finalAtk + finalDef⟩

/-- Embedding of the accumulation loop of
`PowerService.calculate_player_total_power`
(`power_service.py`, lines 59-121): over every owned stack,
`total_atk += individual.atk * quantity`,
`total_def += individual.def * quantity`, and finally
`total_power = total_atk + total_def`.  Returns
`(total_attack, total_defense, total_power)`. -/
def playerTotalPower (sts : List (FusionStack × EspritBaseStats))
    (cfg : PowerConfig) : Int × Int × Int :=
  let totals := sts.foldl
    (fun acc sb =>
      let ip := individualPower sb.1.tier sb.2 cfg
      (acc.1 + ip.atk * (sb.1.quantity : Int), acc.2 + ip.defense * (sb.1.quantity : Int)))
    (0, 0)
  (totals.1, totals.2, totals.1 + totals.2)

lemma playerTotalPower_foldl (sts : List (FusionStack × EspritBaseStats))
    (cfg : PowerConfig) (a d : Int) :
    sts.foldl
      (fun acc sb =>
        let ip := individualPower sb.1.tier sb.2 cfg
        (acc.1 + ip.atk * (sb.1.quantity : Int), acc.2 + ip.defense * (sb.1.quantity : Int)))
      (a, d) =
      (a + (sts.map
        (fun sb => (individualPower sb.1.tier sb.2 cfg).atk * (sb.1.quantity : Int))).sum,
       d + (sts.map
        (fun sb => (individualPower sb.1.tier sb.2 cfg).defense * (sb.1.quantity : Int))).sum) := by
  induction sts generalizing a d with
  | nil => simp
  | cons hd tl ih =>
    simp only [List.foldl_cons, List.map_cons, List.sum_cons, ih]
    rw [Prod.mk.injEq]
    constructor <;> ring

lemma power_sum_split (sts : List (FusionStack × EspritBaseStats)) (cfg : PowerConfig) :
    (sts.map
      (fun sb => (individualPower sb.1.tier sb.2 cfg).power * (sb.1.quantity : Int))).sum =
    (sts.map
      (fun sb => (individualPower sb.1.tier sb.2 cfg).atk * (sb.1.quantity : Int))).sum +
    (sts.map
      (fun sb => (individualPower sb.1.tier sb.2 cfg).defense * (sb.1.quantity : Int))).sum := by
  induction sts with
  | nil => simp
  | cons hd tl ih =>
    simp only [List.map_cons, List.sum_cons, ih]
    have hpd : (individualPower hd.1.tier hd.2 cfg).power =
        (individualPower hd.1.tier hd.2 cfg).atk +
          (individualPower hd.1.tier hd.2 cfg).defense := rfl
    rw [hpd]
    ring

/-- C5: unit power is deterministic in tier and base stats with
`multiplier = (tierScalingBase + (tier - 1) * tierScalingStep) * (1 + elementBonus)`,
`atk = floor(baseAtk * multiplier)`, `def = floor(baseDef * multiplier)`,
`power = atk + def`; and the player total power is the sum of unit power
times stack quantity over every owned stack. -/
theorem c5_power_formula_and_total (cfg : PowerConfig)
    (sts : List (FusionStack × EspritBaseStats))
    (hb : 0 ≤ cfg.tierScalingBase) (hs : 0 ≤ cfg.tierScalingMultiplier)
    (he : 0 ≤ cfg.elementBonusMultiplier) :
    (∀ (tier : Nat) (b : EspritBaseStats), 1 ≤ tier → 0 ≤ b.baseAtk → 0 ≤ b.baseDef →
      (individualPower tier b cfg).atk =
        ⌊(b.baseAtk : Rat) *
          ((cfg.tierScalingBase + ((tier : Rat) - 1) * cfg.tierScalingMultiplier) *
            (1 + cfg.elementBonusMultiplier))⌋ ∧
      (individualPower tier b cfg).defense =
        ⌊(b.baseDef : Rat) *
          ((cfg.tierScalingBase + ((tier : Rat) - 1) * cfg.tierScalingMultiplier) *
            (1 + cfg.elementBonusMultiplier))⌋ ∧
      (individualPower tier b cfg).power =
        (individualPower tier b cfg).atk + (individualPower tier b cfg).defense) ∧
    (playerTotalPower sts cfg).2.2 =
      (sts.map
        (fun sb => (individualPower sb.1.tier sb.2 cfg).power * (sb.1.quantity : Int))).sum := by
  constructor
  · intro tier b htier hA hD
    have ht1 : (0 : Rat) ≤ (tier : Rat) - 1 := by
      have h1 : (1 : Rat) ≤ (tier : Rat) := by exact_mod_cast htier
      linarith
    have htm : (0 : Rat) ≤ cfg.tierScalingBase + ((tier : Rat) - 1) * cfg.tierScalingMultiplier :=
      add_nonneg hb (mul_nonneg ht1 hs)
    have hel : (0 : Rat) ≤ 1 + cfg.elementBonusMultiplier := by linarith
    have htot : (0 : Rat) ≤
        (cfg.tierScalingBase + ((tier : Rat) - 1) * cfg.tierScalingMultiplier) *
          (1 + cfg.elementBonusMultiplier) :=
      mul_nonneg htm hel
    have hAq : (0 : Rat) ≤ (b.baseAtk : Rat) := by exact_mod_cast hA
    have hDq : (0 : Rat) ≤ (b.baseDef : Rat) := by exact_mod_cast hD
    refine ⟨?_, ?_, rfl⟩
    · show pyInt _ = _
      rw [pyInt, if_pos (mul_nonneg hAq htot)]
    · show pyInt _ = _
      rw [pyInt, if_pos (mul_nonneg hDq htot)]
  · simp only [playerTotalPower, playerTotalPower_foldl, zero_add]
    exact (power_sum_split sts cfg).symm

/-- C5 witness: one stack of tier 2, quantity 3, base stats (10, 10),
default scaling configuration (1.0, 0.15, 0.05). -/
theorem c5_power_formula_and_total_witness :
    (∀ (tier : Nat) (b : EspritBaseStats), 1 ≤ tier → 0 ≤ b.baseAtk → 0 ≤ b.baseDef →
      (individualPower tier b ⟨1, 3/20, 1/20⟩).atk =
        ⌊(b.baseAtk : Rat) *
          (((1 : Rat) + ((tier : Rat) - 1) * (3/20)) * (1 + 1/20))⌋ ∧
      (individualPower tier b ⟨1, 3/20, 1/20⟩).defense =
        ⌊(b.baseDef : Rat) *
          (((1 : Rat) + ((tier : Rat) - 1) * (3/20)) * (1 + 1/20))⌋ ∧
      (individualPower tier b ⟨1, 3/20, 1/20⟩).power =
        (individualPower tier b ⟨1, 3/20, 1/20⟩).atk +
          (individualPower tier b ⟨1, 3/20, 1/20⟩).defense) ∧
    (playerTotalPower [(⟨2, 3⟩, ⟨10, 10⟩)] ⟨1, 3/20, 1/20⟩).2.2 =
      (([(⟨2, 3⟩, ⟨10, 10⟩)] : List (FusionStack × EspritBaseStats)).map
        (fun sb => (individualPower sb.1.tier sb.2 ⟨1, 3/20, 1/20⟩).power *
          (sb.1.quantity : Int))).sum :=
  c5_power_formula_and_total ⟨1, 3/20, 1/20⟩ [(⟨2, 3⟩, ⟨10, 10⟩)]
    (by norm_num) (by norm_num) (by norm_num)

/-- Embedding of `PowerService.calculate_floor_power_requirement`
(`power_service.py`, lines 159-171): `floor * difficulty_multiplier`. -/
def floorPowerRequirement (difficultyMultiplier : Int) (floor : Nat) : Int :=
  (floor : Int) * difficultyMultiplier

/-- Embedding of the efficiency computation of
`PowerService.calculate_combat_efficiency` (`power_service.py`,
lines 173-211): `10.0` when the requirement is non-positive, otherwise
`min(player_power / floor_requirement, 10.0)`; the damage multiplier
equals the efficiency in both branches. -/
def combatEfficiency (playerPower floorRequirement : Int) : Rat :=
  if floorRequirement ≤ 0 then 10
  else min ((playerPower : Rat) / (floorRequirement : Rat)) 10

/-- Outcome record of `TowerService._simulate_combat`. -/
structure CombatResult where
  bossMaxHealth : Int
  damageDealt : Int
  bossHealthRemaining : Int
  victory : Bool
deriving DecidableEq

/-- Embedding of `TowerService._simulate_combat`
(`tower_service.py`, lines 243-270): `boss_health = base_boss_health * floor`,
`total_damage = damage_multiplier * base_boss_health * stamina_used`,
`actual_damage = int(total_damage * (1 + varianceRoll))` where
`varianceRoll` is the sampled `random.uniform(-variance, variance)`,
`victory = actual_damage >= boss_health`. -/
def simulateCombat (damageMultiplier : Rat) (baseBossHealth : Nat)
    (varianceRoll : Rat) (staminaUsed floor : Nat) : CombatResult :=
  let bossHealth : Int := (baseBossHealth : Int) * (floor : Int)
  let totalDamage : Rat := damageMultiplier * (baseBossHealth : Rat) * (staminaUsed : Rat)
  let actualDamage : Int := pyInt (totalDamage * (1 + varianceRoll))
  { bossMaxHealth := bossHealth
    damageDealt := actualDamage
    bossHealthRemaining := max 0 (bossHealth - actualDamage)
    victory := decide (bossHealth ≤ actualDamage) }

/-- C6 counterexample: player power exactly equal to the floor-2
requirement (efficiency 1.0), variance roll at the midpoint, 1 stamina
spent: final damage is 100 against boss health 200, a defeat — the
claim fails for `floor = 2`, `staminaToSpend = 1`. -/
theorem c6_equal_power_defeat_on_floor2 :
    (simulateCombat
      (combatEfficiency (floorPowerRequirement 1000 2) (floorPowerRequirement 1000 2))
      100 0 1 2).victory = false := by
  have heff : combatEfficiency (floorPowerRequirement 1000 2)
      (floorPowerRequirement 1000 2) = 1 := by
    rw [floorPowerRequirement, combatEfficiency]
    norm_num
  simp only [simulateCombat, heff]
  have harg : (1 : Rat) * ((100 : Nat) : Rat) * ((1 : Nat) : Rat) * (1 + 0) =
      ((100 : Int) : Rat) := by
    push_cast
    norm_num
  rw [harg, pyInt, if_pos (by positivity), Int.floor_intCast]
  decide

/-- C6 (amended): at player power exactly equal to the floor
requirement (efficiency 1.0) and the variance midpoint, the final
damage is `baseBossHealth * staminaSpent`, so the attempt is a victory
precisely when `staminaToSpend >= floor` — in particular for floor 1
and every stamina, but not for `staminaToSpend < floor`. -/
theorem c6_equal_power_victory_iff_stamina (P : Int) (B stamina floorN : Nat)
    (hP : 0 < P) (hB : 0 < B) (hs : 1 ≤ stamina) :
    (simulateCombat (combatEfficiency P P) B 0 stamina floorN).damageDealt =
      (B : Int) * (stamina : Int) ∧
    ((simulateCombat (combatEfficiency P P) B 0 stamina floorN).victory = true ↔
      floorN ≤ stamina) := by
  have hPne : ((P : Rat)) ≠ 0 := by
    have : (0 : Rat) < (P : Rat) := by exact_mod_cast hP
    exact ne_of_gt this
  have heff : combatEfficiency P P = 1 := by
    rw [combatEfficiency, if_neg (not_le.mpr hP), div_self hPne]
    exact min_eq_left (by norm_num)
  have hdmg : (simulateCombat (combatEfficiency P P) B 0 stamina floorN).damageDealt =
      (B : Int) * (stamina : Int) := by
    show pyInt _ = _
    rw [heff]
    have harg : (1 : Rat) * (B : Rat) * (stamina : Rat) * (1 + 0) =
        (((B * stamina : Nat) : Int) : Rat) := by
      push_cast
      ring
    rw [harg, pyInt, if_pos (by positivity), Int.floor_intCast]
    push_cast
    ring
  refine ⟨hdmg, ?_⟩
  show decide ((B : Int) * (floorN : Int) ≤ _) = true ↔ _
  rw [show (simulateCombat (combatEfficiency P P) B 0 stamina floorN).damageDealt =
      pyInt ((combatEfficiency P P) * (B : Rat) * (stamina : Rat) * (1 + 0)) from rfl] at hdmg
  rw [hdmg]
  have hBi : (0 : Int) < (B : Int) := by exact_mod_cast hB
  constructor
  · intro h
    have hle := of_decide_eq_true h
    have := le_of_mul_le_mul_left hle hBi
    exact_mod_cast this
  · intro h
    refine decide_eq_true ?_
    have hcast : ((floorN : Int)) ≤ (stamina : Int) := by exact_mod_cast h
    exact mul_le_mul_of_nonneg_left hcast hBi.le

/-- C6 witness: requirement 1000 at efficiency 1.0, base boss health
100, 3 stamina against floor 2: damage 300, victory since 2 <= 3. -/
theorem c6_equal_power_victory_iff_stamina_witness :
    (simulateCombat (combatEfficiency 1000 1000) 100 0 3 2).damageDealt =
      (100 : Int) * (3 : Int) ∧
    ((simulateCombat (combatEfficiency 1000 1000) 100 0 3 2).victory = true ↔
      (2 : Nat) ≤ 3) :=
  c6_equal_power_victory_iff_stamina 1000 100 3 2 (by decide) (by decide) (by decide)

/-- Ordering of rate-table entries by tier key, mirroring
`sorted(rates.keys(), key=int)` in `_select_tier_by_probability`. -/
def tierLE (a b : Nat × Rat) : Prop :=
  a.1 ≤ b.1

instance : DecidableRel tierLE :=
  fun a b => inferInstanceAs (Decidable (a.1 ≤ b.1))

instance : IsTotal (Nat × Rat) tierLE :=
  ⟨fun a b => Nat.le_total a.1 b.1⟩

instance : IsTrans (Nat × Rat) tierLE :=
  ⟨fun _ _ _ h1 h2 => Nat.le_trans h1 h2⟩

/-- Rate table sorted ascending by tier key. -/
def sortByTier (rates : List (Nat × Rat)) : List (Nat × Rat) :=
  List.insertionSort tierLE rates

/-- The accumulation loop of `EspritService._select_tier_by_probability`
(`esprit_service.py`, lines 268-283): walk the sorted entries keeping a
running `cumulative` sum and return the first tier with
`roll <= cumulative`. -/
def selectLoop (roll : Rat) : Rat → List (Nat × Rat) → Option Nat
  | _, [] => none
  | cum, (t, w) :: rest => if roll ≤ cum + w then some t else selectLoop roll (cum + w) rest

/-- Embedding of `EspritService._select_tier_by_probability`
(`esprit_service.py`, lines 268-283): sort tiers ascending, walk
accumulating weights, return the first tier reaching the roll, falling
back to the last (highest) sorted tier.  The Python code indexes
`sorted_tiers[-1]` and would raise on an empty table (the claims only
concern non-empty tables); the embedding returns a default of 0 there. -/
def selectTierByProbability (rates : List (Nat × Rat)) (roll : Rat) : Nat :=
  match selectLoop roll 0 (sortByTier rates) with
  | some t => t
  | none => (((sortByTier rates).getLast?).map Prod.fst).getD 0

/-- Entries annotated with their running cumulative weight, used to
state the claim's characterisation of the walk. -/
def withCum (acc : Rat) : List (Nat × Rat) → List (Nat × Rat)
  | [] => []
  | (t, w) :: rest => (t, acc + w) :: withCum (acc + w) rest

/-- Claim-side characterisation: the first tier (in list order) whose
cumulative weight reaches or exceeds the draw, if any. -/
def specFirstReaching (l : List (Nat × Rat)) (roll : Rat) : Option Nat :=
  ((withCum 0 l).find? (fun tc => decide (roll ≤ tc.2))).map Prod.fst

lemma selectLoop_eq_find (roll : Rat) (acc : Rat) (l : List (Nat × Rat)) :
    selectLoop roll acc l =
      ((withCum acc l).find? (fun tc => decide (roll ≤ tc.2))).map Prod.fst := by
  induction l generalizing acc with
  | nil => rfl
  | cons hd tl ih =>
    obtain ⟨t, w⟩ := hd
    by_cases h : roll ≤ acc + w
    · rw [selectLoop, if_pos h, withCum,
        List.find?_cons_of_pos _ (by simpa using h)]
      rfl
    · rw [selectLoop, if_neg h, withCum,
        List.find?_cons_of_neg _ (by simpa using h)]
      exact ih (acc + w)

lemma sorted_getLast_max (l : List (Nat × Rat)) (h : l.Sorted tierLE) (hne : l ≠ []) :
    ∀ x ∈ l, x.1 ≤ (l.getLast hne).1 := by
  induction l with
  | nil => exact absurd rfl hne
  | cons hd tl ih =>
    intro x hx
    rcases tl with _ | ⟨h2, t2⟩
    · have hxh : x = hd := by simpa using hx
      subst hxh
      exact le_refl _
    · rw [List.getLast_cons (List.cons_ne_nil h2 t2)]
      rcases List.mem_cons.mp hx with hxh | hxtl
      · subst hxh
        exact List.rel_of_sorted_cons h _ (List.getLast_mem (List.cons_ne_nil h2 t2))
      · exact ih h.of_cons (List.cons_ne_nil h2 t2) x hxtl

/-- C4: on a non-empty rate table, the gacha tier selection walks the
tiers in ascending numeric order accumulating their weights and returns
the first tier whose cumulative weight reaches or exceeds the uniform
draw; when no cumulative sum reaches the draw, it returns the highest
configured tier (weights need not sum to 1). -/
theorem c4_select_tier_characterisation (rates : List (Nat × Rat)) (roll : Rat)
    (hne : rates ≠ []) :
    (∀ t, specFirstReaching (sortByTier rates) roll = some t →
      selectTierByProbability rates roll = t) ∧
    (specFirstReaching (sortByTier rates) roll = none →
      selectTierByProbability rates roll ∈ rates.map Prod.fst ∧
      ∀ t ∈ rates.map Prod.fst, t ≤ selectTierByProbability rates roll) := by
  have hperm : List.Perm (sortByTier rates) rates := List.perm_insertionSort tierLE rates
  have hsne : sortByTier rates ≠ [] := by
    intro h0
    rw [h0] at hperm
    exact hne (List.Perm.nil_eq hperm).symm
  have hloop : selectLoop roll 0 (sortByTier rates) =
      specFirstReaching (sortByTier rates) roll :=
    selectLoop_eq_find roll 0 (sortByTier rates)
  constructor
  · intro t ht
    rw [selectTierByProbability, hloop, ht]
  · intro hnone
    rw [selectTierByProbability, hloop, hnone]
    have hlast : ((sortByTier rates).getLast?).map Prod.fst =
        some ((sortByTier rates).getLast hsne).1 := by
      rw [List.getLast?_eq_getLast _ hsne]
      rfl
    rw [hlast]
    constructor
    · show ((sortByTier rates).getLast hsne).1 ∈ rates.map Prod.fst
      exact List.mem_map_of_mem Prod.fst (hperm.mem_iff.mp (List.getLast_mem hsne))
    · intro t ht
      obtain ⟨x, hx, hxt⟩ := List.mem_map.mp ht
      subst hxt
      exact sorted_getLast_max (sortByTier rates)
        (List.sorted_insertionSort tierLE rates) hsne x (hperm.mem_iff.mpr hx)

/-- C4 witness: the documented rate table
`(1, 0.7), (2, 0.2), (3, 0.08), (4, 0.02)` with draw 0.85: cumulative
weights are 0.7, 0.9, 0.98, 1.0, and tier 2 is the first to reach the
draw. -/
theorem c4_select_tier_characterisation_witness :
    selectTierByProbability [(1, 7/10), (2, 1/5), (3, 2/25), (4, 1/50)] (17/20) = 2 := by
  refine (c4_select_tier_characterisation
    [(1, 7/10), (2, 1/5), (3, 2/25), (4, 1/50)] (17/20) (by decide)).1 2 ?_
  have hsorted : sortByTier [(1, 7/10), (2, 1/5), (3, 2/25), (4, 1/50)] =
      [(1, 7/10), (2, 1/5), (3, 2/25), (4, 1/50)] := by
    rfl
  rw [specFirstReaching, hsorted]
  have hcum : withCum 0 [(1, 7/10), (2, 1/5), (3, 2/25), (4, 1/50)] =
      [(1, 0 + 7/10), (2, 0 + 7/10 + 1/5), (3, 0 + 7/10 + 1/5 + 2/25),
       (4, 0 + 7/10 + 1/5 + 2/25 + 1/50)] := by
    rfl
  rw [hcum]
  rw [List.find?_cons_of_neg _ (by norm_num), List.find?_cons_of_pos _ (by norm_num)]
  rfl

/-- Modelled from the spec: the tower-progression fields of the
services' `Player` row (`current_floor`, `highest_floor_reached`,
`raid_progress`, raid/climb timestamps, cached attack/defense power,
currency balances), used by `tower_service.py`; the corresponding model
file is absent from the repository.  Only the fields `raid_current_floor`
touches are carried. -/
structure TowerPlayer where
  currentFloor : Nat
  seios : Int
  erythl : Int
  raidProgress : Rat
  lastRaidTime : Option Nat
  lastClimbTime : Option Nat
  attackPower : Int
  defensePower : Int
deriving DecidableEq

/-- Random draws consumed by `_calculate_raid_loot`: the
`random.random()` rolls for the erythl and encounter chances and the
`random.randint` magnitudes. -/
structure RaidRolls where
  erythlRoll : Rat
  erythlAmount : Int
  encounterRoll : Rat
  encounterBonus : Int
deriving DecidableEq

/-- Embedding of the deterministic seios part of
`TowerService._calculate_raid_loot` (`tower_service.py`, lines 272-304):
`seios_per_hour = base_seios_per_hour * (1 + (floor - 1) * 0.1)`,
`total_seios = int(seios_per_hour * idle_hours)`. -/
def raidLootSeios (baseSeiosPerHour : Rat) (floor : Nat) (idleHours : Rat) : Int :=
  pyInt (baseSeiosPerHour * (1 + ((floor : Rat) - 1) * (1/10)) * idleHours)

/-- Embedding of the currency outputs of
`TowerService._calculate_raid_loot`: the seios total plus the erythl
bonus, granted when the random roll beats
`min(1.0, erythl_chance_per_hour * idle_hours)`.  (The encounter bonus
seios are computed but never granted to the player by
`raid_current_floor`, so they do not appear in the state update.) -/
def calculateRaidLootCurrency (baseSeiosPerHour erythlChancePerHour : Rat)
    (floor : Nat) (idleHours : Rat) (rolls : RaidRolls) : Int × Int :=
  (raidLootSeios baseSeiosPerHour floor idleHours,
   if rolls.erythlRoll < min 1 (erythlChancePerHour * idleHours) then rolls.erythlAmount
   else 0)

/-- Embedding of `TowerService._calculate_progress_gain`
(`tower_service.py`, lines 306-320).  The call to
`PowerService.calculate_floor_power_requirement` is not awaited, so the
`hasattr(result, "data")` check fails and the requirement falls back to
the constant 1000. -/
def progressGain (p : TowerPlayer) (baseProgressPerHour : Rat) (idleHours : Rat) : Rat :=
  let playerPower : Int := p.attackPower + p.defensePower
  let efficiency := min ((playerPower : Rat) / 1000) 2
  min 1 (baseProgressPerHour * efficiency * idleHours)

/-- Embedding of `TowerService.raid_current_floor`
(`tower_service.py`, lines 131-204): elapsed idle hours since the later
of the raid/climb timestamps (defaulting to `now`), capped at
`max_idle_hours`; below 0.1 hours the operation raises `ValueError`
("Must wait at least 6 minutes between raids"), rolled back with no
state change; otherwise currencies are granted (only when positive),
raid progress is advanced and clamped at 1, and the raid timestamp is
set to `now`. -/
def raidCurrentFloor (p : TowerPlayer)
    (baseSeiosPerHour erythlChancePerHour maxIdleHours baseProgressPerHour : Rat)
    (now : Nat) (rolls : RaidRolls) : Except ErrorCode (Int × Int) × TowerPlayer :=
  let lastRaid := p.lastRaidTime.getD (p.lastClimbTime.getD now)
  let idleHours : Rat := ((now - lastRaid : Nat) : Rat) / 3600
  let capped := min idleHours maxIdleHours
  if capped < 1/10 then
    (Except.error ErrorCode.validationError, p)
  else
    let loot := calculateRaidLootCurrency baseSeiosPerHour erythlChancePerHour
      p.currentFloor capped rolls
    let gained := progressGain p baseProgressPerHour capped
    (Except.ok loot,
     { p with
         seios := if 0 < loot.1 then p.seios + loot.1 else p.seios
         erythl := if 0 < loot.2 then p.erythl + loot.2 else p.erythl
         raidProgress := min 1 (p.raidProgress + gained)
         lastRaidTime := some now })

/-- C7 counterexample: 5 minutes of idle time (300 seconds, capped
value 1/12 hour, below the 0.1-hour minimum): the raid fails with no
state change and zero loot, but the error envelope carries
`VALIDATION_ERROR` (the `ValueError` path), not a `CooldownActive`
kind — no such kind exists in the code's error taxonomy. -/
theorem c7_below_threshold_validation_error :
    raidCurrentFloor ⟨1, 0, 0, 0, some 0, none, 0, 0⟩ 100 (1/20) 24 (1/10) 300 ⟨0, 0, 0, 0⟩ =
      (Except.error ErrorCode.validationError, ⟨1, 0, 0, 0, some 0, none, 0, 0⟩) := by
  have h1 : (((300 - (0 : Nat)) : Nat) : Rat) / 3600 = 1/12 := by
    norm_num
  have hcond : min ((((300 : Nat) - (0 : Nat) : Nat) : Rat) / 3600) (24 : Rat) < 1/10 := by
    rw [h1, min_eq_left (by norm_num : (1/12 : Rat) ≤ 24)]
    norm_num
  simp only [raidCurrentFloor, Option.getD_some]
  rw [if_pos hcond]

/-- C7 (amended): the deterministic base-currency (seios) loot is
monotonically non-decreasing in elapsed idle time and constant beyond
the configured idle cap; and whenever the capped idle time is below the
0.1-hour minimum, the raid fails — with a `VALIDATION_ERROR` envelope
(there is no `CooldownActive` kind in the code) — granting nothing and
changing no state. -/
theorem c7_loot_monotone_and_cooldown (base maxIdle : Rat) (floor : Nat)
    (hbase : 0 ≤ base) (hfloor : 1 ≤ floor) (hmax : 0 ≤ maxIdle) :
    (∀ t1 t2 : Rat, 0 ≤ t1 → t1 ≤ t2 →
      raidLootSeios base floor (min t1 maxIdle) ≤
        raidLootSeios base floor (min t2 maxIdle)) ∧
    (∀ t : Rat, maxIdle ≤ t →
      raidLootSeios base floor (min t maxIdle) = raidLootSeios base floor maxIdle) ∧
    (∀ (p : TowerPlayer) (ec bp : Rat) (now : Nat) (rolls : RaidRolls),
      min ((((now - (p.lastRaidTime.getD (p.lastClimbTime.getD now)) : Nat)) : Rat) / 3600)
          maxIdle < 1/10 →
      raidCurrentFloor p base ec maxIdle bp now rolls =
        (Except.error ErrorCode.validationError, p)) := by
  have hrate : (0 : Rat) ≤ base * (1 + ((floor : Rat) - 1) * (1/10)) := by
    have hf1 : (1 : Rat) ≤ (floor : Rat) := by exact_mod_cast hfloor
    have : (0 : Rat) ≤ 1 + ((floor : Rat) - 1) * (1/10) := by linarith
    exact mul_nonneg hbase this
  refine ⟨?_, ?_, ?_⟩
  · intro t1 t2 ht1 h12
    have hm : min t1 maxIdle ≤ min t2 maxIdle := min_le_min h12 le_rfl
    have h0 : (0 : Rat) ≤ min t1 maxIdle := le_min ht1 hmax
    have harg1 : (0 : Rat) ≤ base * (1 + ((floor : Rat) - 1) * (1/10)) * min t1 maxIdle :=
      mul_nonneg hrate h0
    have harg12 : base * (1 + ((floor : Rat) - 1) * (1/10)) * min t1 maxIdle ≤
        base * (1 + ((floor : Rat) - 1) * (1/10)) * min t2 maxIdle :=
      mul_le_mul_of_nonneg_left hm hrate
    rw [raidLootSeios, raidLootSeios, pyInt, pyInt,
      if_pos harg1, if_pos (le_trans harg1 harg12)]
    exact Int.floor_le_floor harg12
  · intro t ht
    rw [min_eq_right ht]
  · intro p ec bp now rolls hcond
    simp only [raidCurrentFloor]
    rw [if_pos hcond]

/-- C7 witness: default configuration (100 seios/hour, 24-hour cap) on
floor 1: monotonicity and the cooldown rejection apply; hypotheses are
discharged numerically. -/
theorem c7_loot_monotone_and_cooldown_witness :
    (∀ t1 t2 : Rat, 0 ≤ t1 → t1 ≤ t2 →
      raidLootSeios 100 1 (min t1 24) ≤ raidLootSeios 100 1 (min t2 24)) ∧
    (∀ t : Rat, (24 : Rat) ≤ t →
      raidLootSeios 100 1 (min t 24) = raidLootSeios 100 1 24) ∧
    (∀ (p : TowerPlayer) (ec bp : Rat) (now : Nat) (rolls : RaidRolls),
      min ((((now - (p.lastRaidTime.getD (p.lastClimbTime.getD now)) : Nat)) : Rat) / 3600)
          (24 : Rat) < 1/10 →
      raidCurrentFloor p 100 ec 24 bp now rolls =
        (Except.error ErrorCode.validationError, p)) :=
  c7_loot_monotone_and_cooldown 100 24 1 (by norm_num) (by norm_num) (by norm_num)

end Riki
